import Mathlib

/-!
Verification of the gamer-x LangGraph workflow (src/src/gamer_x).

Shallow embedding: each graph node of agent.py and each router becomes a Lean
function over an explicit `GraphState` record; the external capabilities
(Bedrock agents, MongoDB tools) become an `Oracle` record of request/response
functions; a fuel-indexed interpreter `runAux` walks the graph exactly as the
compiled workflow does.  Uncaught Python exceptions are modelled as the
`Except.error` branch of each step.
-/

namespace GamerX

/-- Decidable equality for `Except`, so runs and patches can be compared by
evaluation. -/
instance instDecEqExcept {ε α : Type} [DecidableEq ε] [DecidableEq α] :
    DecidableEq (Except ε α) := fun x y =>
  match x, y with
  | .ok a, .ok b =>
      if h : a = b then .isTrue (by rw [h]) else .isFalse (fun hc => h (Except.ok.inj hc))
  | .error a, .error b =>
      if h : a = b then .isTrue (by rw [h]) else .isFalse (fun hc => h (Except.error.inj hc))
  | .ok _, .error _ => .isFalse (fun hc => Except.noConfusion hc)
  | .error _, .ok _ => .isFalse (fun hc => Except.noConfusion hc)

/-- A structured tool invocation carried by an assistant message
(name + arguments + an identifier); arguments are kept as their
serialized text. -/
structure ToolCall where
  name : String
  args : String
  id : String
deriving DecidableEq, Repr

/-- Conversation messages.  `human` mirrors `HumanMessage`, `ai` mirrors
`AIMessage` (the only kind that owns a `tool_calls` attribute), `tool`
mirrors `ToolMessage`. -/
inductive Msg where
  | human (content : String)
  | ai (content : String) (tool_calls : List ToolCall)
  | tool (content : String) (name : String) (id : String)
deriving DecidableEq, Repr

/-- The `.content` attribute, defined on every message kind. -/
def Msg.content : Msg → String
  | .human c => c
  | .ai c _ => c
  | .tool c _ _ => c

/-- Python attribute access `message.tool_calls`: only `AIMessage` defines it;
on the other kinds the access raises `AttributeError`, modelled as `none`. -/
def Msg.toolCallsAttr : Msg → Option (List ToolCall)
  | .ai _ tc => some tc
  | _ => none

/-- `messages[-1]`: the last element, `none` when the list is empty
(Python `IndexError`). -/
def lastMsg (l : List Msg) : Option Msg :=
  l.getLast?

/-- The answer of `code_generator_agent.ainvoke` as read by `python_formatter`:
a content string and the `tool_calls` list, where each tool call is represented
by the value of `args.get('python_code')` (`none` when the key is absent). -/
structure CodeGenAnswer where
  content : String
  tool_calls : List (Option String)
deriving DecidableEq, Repr

/-- Failures of the `mongodb_executor_agent` call: `inputTooLarge` stands for
any exception whose text contains "Input is too long for requested model"
(the marker `execute_mongodb_query` tests for), `other` for every other
exception text. -/
inductive MongoGenErr where
  | inputTooLarge
  | other (msg : String)
deriving DecidableEq, Repr

/-- The external capability boundary: one field per call site, taking exactly
the data the source passes into the prompt/agent at that site and returning
the response, or `Except.error` when that call raises.  Tool results arrive
already serialized to text (the source serializes with `json.dumps`
immediately at the call). -/
structure Oracle where
  /-- `code_query_route_agent.ainvoke(...)['route']` in `code_query_assignment`. -/
  classify : String → Except String String
  /-- `SONNET_4_LLM.ainvoke(...)` in `get_schema_context`; the model has no
  tools bound (utils/llms.py), so only the content string is produced. -/
  schemaCtx : String → List String → Nat → Except String String
  /-- `mongodb_executor_agent.ainvoke(...)` in `execute_mongodb_query`:
  an assistant message given as (content, tool_calls). -/
  mongoGen : List String → List Msg → Option (List String) → String → Nat →
      Except MongoGenErr (String × List ToolCall)
  /-- `tools_by_name[name].ainvoke(args)` followed by `json.dumps` in
  `get_mongodb_execute_tools`. -/
  mongoTool : String → String → Except String String
  /-- `code_generator_agent.ainvoke(...)` in `python_formatter`. -/
  codeGen : String → List String → String → String → Except String CodeGenAnswer
  /-- `SONNET_4_LLM.ainvoke(...)` in `python_summarizer`, reduced to the
  extracted content text. -/
  summarize : Option String → String → Except String String
  /-- `python_execute_agent.ainvoke(...)` in `python_executor`:
  an assistant message given as (content, tool_calls). -/
  pyExecAgent : String → String → Nat → Except String (String × List ToolCall)
  /-- `tools_by_name[name].ainvoke(args)` followed by `json.dumps` in
  `run_python_script`. -/
  pyTool : String → String → Except String String
  /-- `script_reformat_agent.ainvoke(...)['reformat']` in `should_reformat`. -/
  reformat : String → String → String → Nat → Except String String

/-- The session state: one field per key the source reads or writes.  Fields
the source accesses through `state.get` with a default are `Option`s (`none`
models the absent key); `messages` and `schema_context` default to `[]`. -/
structure GraphState where
  messages : List Msg := []
  query : Option String := none
  code_or_query : Option String := none
  schema_context : List String := []
  mongodb_output : List Msg := []
  mongodb_query : Option (List String) := none
  mongodb_call_count : Option Nat := none
  schema_call_count : Option Nat := none
  python_code : Option String := none
  python_code_response : Option String := none
  python_execute_count : Option Nat := none
  generation : Option String := none
  error : Option String := none
deriving DecidableEq, Repr

/-- The partial update a node returns: `none` means the node's dictionary
does not carry that key. -/
structure Patch where
  messages : Option (List Msg) := none
  query : Option String := none
  code_or_query : Option String := none
  schema_context : Option (List String) := none
  mongodb_output : Option (List Msg) := none
  mongodb_query : Option (List String) := none
  mongodb_call_count : Option Nat := none
  schema_call_count : Option Nat := none
  python_code : Option String := none
  python_code_response : Option String := none
  python_execute_count : Option Nat := none
  generation : Option String := none
  error : Option String := none
deriving DecidableEq, Repr

/-- Replace policy for one field: the patch value wins when present. -/
def overwrite {α : Type} (old : Option α) (new : Option α) : Option α :=
  match new with
  | some v => some v
  | none => old

/-- Modelled from the spec: the GraphState field reducers (utils/state.py is
not under src; only its importers are).  Spec section 4.1: `message_log` and
`schema_context` have the append policy — patch values are concatenated onto
the existing sequence — and every other field is replace, the patch carrying
the already-updated value. -/
def merge (s : GraphState) (p : Patch) : GraphState where
  messages := s.messages ++ p.messages.getD []
  query := overwrite s.query p.query
  code_or_query := overwrite s.code_or_query p.code_or_query
  schema_context := s.schema_context ++ p.schema_context.getD []
  mongodb_output := (p.mongodb_output).getD s.mongodb_output
  mongodb_query := overwrite s.mongodb_query p.mongodb_query
  mongodb_call_count := overwrite s.mongodb_call_count p.mongodb_call_count
  schema_call_count := overwrite s.schema_call_count p.schema_call_count
  python_code := overwrite s.python_code p.python_code
  python_code_response := overwrite s.python_code_response p.python_code_response
  python_execute_count := overwrite s.python_execute_count p.python_execute_count
  generation := overwrite s.generation p.generation
  error := overwrite s.error p.error

/-- `set_query` (utils/nodes/connectors.py, lines 17-44): reads
`state["messages"][-1].content` and resets the three counters to 0. -/
def set_query (s : GraphState) : Except String Patch :=
  match lastMsg s.messages with
  | none => .error "IndexError: list index out of range"
  | some m =>
      .ok { query := some m.content
            mongodb_call_count := some 0
            schema_call_count := some 0
            python_execute_count := some 0
            python_code_response := some "Code hasn't been executed yet" }

/-- `get_schema_context` (utils/nodes/schema_context.py, lines 59-78): one
retrieval call, the response content appended onto `schema_context`; the
call is not wrapped in try/except, so a raised exception escapes the node. -/
def get_schema_context (o : Oracle) (s : GraphState) : Except String Patch :=
  let query := s.query.getD "No query was provided"
  let schema_context := s.schema_context
  let tool_call_count := s.schema_call_count.getD 0
  match o.schemaCtx query schema_context tool_call_count with
  | .error e => .error e
  | .ok content =>
      .ok { messages := some [.ai content []]
            schema_context := some (schema_context ++ [content]) }

/-- `code_query_assignment` (utils/nodes/connectors.py, lines 46-70): reads
`state['query']` (KeyError when absent), classifies, stores the route. -/
def code_query_assignment (o : Oracle) (s : GraphState) : Except String Patch :=
  match s.query with
  | none => .error "KeyError: query"
  | some query =>
      match o.classify query with
      | .error e => .error e
      | .ok route => .ok { code_or_query := some route }

/-- `code_query_router` (utils/nodes/connectors.py, lines 72-95). -/
def code_query_router (s : GraphState) : Except String String :=
  match s.code_or_query with
  | none => .error "KeyError: code_or_query"
  | some route => if route = "mongodb_query" then .ok "mongodb" else .ok "python"

/-- `execute_mongodb_query` (utils/nodes/mongodb.py, lines 115-174).  The
try block covers the agent call and the tool-call test; the except arm
returns an error patch only when the exception text carries the
input-too-long marker, otherwise control falls through to
`return {"messages": [response]}` where `response` was never bound
(`UnboundLocalError`). -/
def execute_mongodb_query (o : Oracle) (s : GraphState) : Except String Patch :=
  let context := s.schema_context
  let mongodb_output := s.mongodb_output
  let mongodb_query := s.mongodb_query
  let query := s.query.getD ""
  let tool_call_count := s.mongodb_call_count.getD 0
  match o.mongoGen context mongodb_output mongodb_query query tool_call_count with
  | .ok (content, tool_calls) =>
      if tool_calls = [] then
        .ok { messages := some [.ai content tool_calls], generation := some content }
      else
        .ok { messages := some [.ai content tool_calls] }
  | .error .inputTooLarge =>
      .ok { messages := some []
            error := some "Data retrieved is too long for the model to synthesize. Reduce the size of the input, context, or query." }
  | .error (.other _) =>
      .error "UnboundLocalError: local variable referenced before assignment"

/-- The body of the tool loop in `get_mongodb_execute_tools` (mongodb.py,
lines 88-105): each successful invocation appends its serialized result and
its arguments; a raised exception appends only a message whose content is the
exception text. -/
def mongoToolLoop (o : Oracle) :
    List ToolCall → List Msg × List String → List Msg × List String
  | [], acc => acc
  | tc :: rest, (outs, mq) =>
      match o.mongoTool tc.name tc.args with
      | .ok r => mongoToolLoop o rest (outs ++ [Msg.tool r tc.name tc.id], mq ++ [tc.args])
      | .error e => mongoToolLoop o rest (outs ++ [Msg.tool e tc.name tc.id], mq)

/-- `get_mongodb_execute_tools` (utils/nodes/mongodb.py, lines 56-112). -/
def get_mongodb_execute_tools (o : Oracle) (s : GraphState) : Except String Patch :=
  let tool_call_count := s.mongodb_call_count.getD 0 + 1
  match lastMsg s.messages with
  | none => .error "IndexError: list index out of range"
  | some m =>
      match m.toolCallsAttr with
      | none => .error "AttributeError: tool_calls"
      | some tool_calls =>
          let r := mongoToolLoop o tool_calls ([], [])
          .ok { messages := some r.1
                mongodb_output := some r.1
                mongodb_query := some r.2
                mongodb_call_count := some tool_call_count }

/-- `should_continue_mongodb` (utils/nodes/mongodb.py, lines 24-54): the
`tool_calls` attribute is read without a `hasattr` guard. -/
def should_continue_mongodb (s : GraphState) : Except String String :=
  match lastMsg s.messages with
  | none => .error "IndexError: list index out of range"
  | some m =>
      match m.toolCallsAttr with
      | none => .error "AttributeError: tool_calls"
      | some tool_calls =>
          if tool_calls = [] then .ok "end"
          else if s.mongodb_call_count.getD 0 > 4 then .ok "end"
          else .ok "continue"

/-- `python_formatter` (utils/nodes/python.py, lines 43-97): `state['query']`
is read before the try block; every exception of the agent call is caught
and turned into a failure-text patch.  The raw code string appended to
`messages` is coerced to a human message by the message reducer. -/
def python_formatter (o : Oracle) (s : GraphState) : Except String Patch :=
  match s.query with
  | none => .error "KeyError: query"
  | some query =>
      let schema_context := s.schema_context
      let python_code := s.python_code.getD "No code has been generated yet"
      let python_code_response := s.python_code_response.getD " "
      match o.codeGen query schema_context python_code python_code_response with
      | .ok answer =>
          let pc :=
            match answer.tool_calls with
            | [] => answer.content
            | a :: _ => a.getD "No code generated"
          .ok { messages := some [.human pc], python_code := some pc, generation := some pc }
      | .error e =>
          let error_msg := "Python formatter failed: " ++ e
          .ok { messages := some [.ai error_msg []]
                python_code := some error_msg
                generation := some error_msg }

/-- `should_execute` (utils/nodes/python.py, lines 99-119). -/
def should_execute (s : GraphState) : Except String String :=
  match s.code_or_query with
  | none => .error "KeyError: code_or_query"
  | some route => if route = "python_script_execute" then .ok "execute" else .ok "summarize"

/-- `python_summarizer` (utils/nodes/python.py, lines 121-169): every
exception of the summarization call is caught and becomes the patch. -/
def python_summarizer (o : Oracle) (s : GraphState) : Except String Patch :=
  let python_code := s.python_code.getD "No code has been generated yet"
  let query := s.query
  match o.summarize query python_code with
  | .ok content =>
      .ok { messages := some [.ai content []], generation := some content }
  | .error e =>
      let error_msg := "Python summarizer failed: " ++ e
      .ok { messages := some [.ai error_msg []], generation := some error_msg }

/-- `python_executor` (utils/nodes/python.py, lines 172-226): every exception
of the agent call is caught and becomes the patch; the counter is read but
never written here. -/
def python_executor (o : Oracle) (s : GraphState) : Except String Patch :=
  let python_code := s.python_code.getD "No code has been generated yet"
  let python_code_response :=
    s.python_code_response.getD "There was no response generated by the script"
  let python_execute_count := s.python_execute_count.getD 0
  match o.pyExecAgent python_code python_code_response python_execute_count with
  | .ok (content, tool_calls) =>
      .ok { messages := some [.ai content tool_calls], generation := some content }
  | .error e =>
      let error_msg := "Python executor failed: " ++ e
      .ok { messages := some [.ai error_msg []], generation := some error_msg }

/-- The tool loop of `run_python_script` (python.py, lines 251-267): `content`
holds the text of the most recent invocation (result or exception). -/
def pyToolLoop (o : Oracle) :
    List ToolCall → List Msg × Option String → List Msg × Option String
  | [], acc => acc
  | tc :: rest, (outs, _) =>
      let content :=
        match o.pyTool tc.name tc.args with
        | .ok r => r
        | .error e => e
      pyToolLoop o rest (outs ++ [Msg.tool content tc.name tc.id], some content)

/-- `run_python_script` (utils/nodes/python.py, lines 230-273), the node
registered as "validate_python_script": when the loop never runs, the
`content` variable is unbound at the return expression. -/
def run_python_script (o : Oracle) (s : GraphState) : Except String Patch :=
  let tool_call_count := s.python_execute_count.getD 0 + 1
  match lastMsg s.messages with
  | none => .error "IndexError: list index out of range"
  | some m =>
      match m.toolCallsAttr with
      | none => .error "AttributeError: tool_calls"
      | some tool_calls =>
          let r := pyToolLoop o tool_calls ([], none)
          match r.2 with
          | none => .error "UnboundLocalError: local variable referenced before assignment"
          | some content =>
              .ok { messages := some r.1
                    python_code_response := some content
                    python_execute_count := some tool_call_count }

/-- `should_continue_python_run` (utils/nodes/python.py, lines 275-308):
reads `messages[-1]` first, then checks the counter, then the guarded
`tool_calls` attribute. -/
def should_continue_python_run (s : GraphState) : Except String String :=
  match lastMsg s.messages with
  | none => .error "IndexError: list index out of range"
  | some m =>
      if s.python_execute_count.getD 0 ≥ 3 then .ok "end"
      else
        match m.toolCallsAttr with
        | none => .ok "end"
        | some [] => .ok "end"
        | some (_ :: _) => .ok "continue"

/-- `should_reformat` (utils/nodes/python.py, lines 311-350): an async
conditional edge that invokes the script-reformat capability and returns the
`reformat` field of its response. -/
def should_reformat (o : Oracle) (s : GraphState) : Except String String :=
  match s.python_code with
  | none => .error "KeyError: python_code"
  | some python_code =>
      match s.query with
      | none => .error "KeyError: query"
      | some query =>
          let python_code_response :=
            s.python_code_response.getD "There was no response generated by the script"
          let python_execute_count := s.python_execute_count.getD 0
          o.reformat python_code python_code_response query python_execute_count

/-- The named nodes of the compiled graph (agent.py, lines 37-47);
"validate_python_script" is the registration name of `run_python_script`. -/
inductive Node where
  | set_query
  | get_schema_context
  | code_query_assignment
  | execute_mongodb_query
  | mongodb_execute_tools
  | python_formatter
  | python_summarizer
  | python_executor
  | validate_python_script
deriving DecidableEq, Repr

/-- Dispatch a node to its step function. -/
def runNode (o : Oracle) : Node → GraphState → Except String Patch
  | .set_query => set_query
  | .get_schema_context => get_schema_context o
  | .code_query_assignment => code_query_assignment o
  | .execute_mongodb_query => execute_mongodb_query o
  | .mongodb_execute_tools => get_mongodb_execute_tools o
  | .python_formatter => python_formatter o
  | .python_summarizer => python_summarizer o
  | .python_executor => python_executor o
  | .validate_python_script => run_python_script o

/-- The edges of agent.py, lines 49-111, evaluated on the post-merge state:
`none` is the terminal marker END, an unmatched conditional label raises. -/
def nextNode (o : Oracle) (n : Node) (s : GraphState) : Except String (Option Node) :=
  match n with
  | .set_query => .ok (some .get_schema_context)
  | .get_schema_context => .ok (some .code_query_assignment)
  | .code_query_assignment =>
      match code_query_router s with
      | .error e => .error e
      | .ok l =>
          if l = "mongodb" then .ok (some .execute_mongodb_query)
          else if l = "python" then .ok (some .python_formatter)
          else .error "KeyError: branch label"
  | .execute_mongodb_query =>
      match should_continue_mongodb s with
      | .error e => .error e
      | .ok l =>
          if l = "continue" then .ok (some .mongodb_execute_tools)
          else if l = "end" then .ok none
          else .error "KeyError: branch label"
  | .mongodb_execute_tools => .ok (some .execute_mongodb_query)
  | .python_formatter =>
      match should_execute s with
      | .error e => .error e
      | .ok l =>
          if l = "execute" then .ok (some .python_executor)
          else if l = "summarize" then .ok (some .python_summarizer)
          else .error "KeyError: branch label"
  | .python_summarizer => .ok none
  | .python_executor =>
      match should_continue_python_run s with
      | .error e => .error e
      | .ok l =>
          if l = "continue" then .ok (some .validate_python_script)
          else if l = "end" then .ok none
          else .error "KeyError: branch label"
  | .validate_python_script =>
      match should_reformat o s with
      | .error e => .error e
      | .ok l =>
          if l = "yes" then .ok (some .python_formatter)
          else if l = "no" then .ok (some .python_executor)
          else .error "KeyError: branch label"

/-- Outcome of a graph walk: the terminal state, an uncaught exception, or
the recursion limit (langgraph GraphRecursionError, modelled as fuel). -/
inductive RunResult where
  | finished (t : GraphState)
  | crashed (e : String)
  | outOfFuel
deriving DecidableEq, Repr

/-- Fuel-indexed interpreter for the compiled graph: invoke the node, merge
its patch, evaluate the outgoing edge on the post-merge state, recurse.
Alongside the outcome it logs each completed node together with the patch it
returned. -/
def runAux (o : Oracle) : Nat → Node → GraphState → List (Node × Patch) × RunResult
  | 0, _, _ => ([], .outOfFuel)
  | fuel + 1, n, s =>
      match runNode o n s with
      | .error e => ([], .crashed e)
      | .ok p =>
          let s' := merge s p
          match nextNode o n s' with
          | .error e => ([(n, p)], .crashed e)
          | .ok none => ([(n, p)], .finished s')
          | .ok (some n') =>
              let r := runAux o fuel n' s'
              ((n, p) :: r.1, r.2)

/-- The initial state `main` builds (agent.py, lines 128-131). -/
def initState (query : String) : GraphState :=
  { messages := [.human query], query := some query }

/-- The number of times a node completed in a logged run. -/
def countVisits (n : Node) (log : List (Node × Patch)) : Nat :=
  (log.filter (fun e => e.1 = n)).length

/-- The number of logged patches that carry the `generation` key. -/
def countGenWrites (log : List (Node × Patch)) : Nat :=
  (log.filter (fun e => e.2.generation.isSome)).length

/-- What `main` hands back: either the bare generation string of the dead
`hasattr` branch, or the whole final state. -/
inductive MainResult where
  | generationOnly (g : String)
  | fullState (t : GraphState)
deriving DecidableEq, Repr

/-- Python `hasattr(answer, "generation")` where `answer` is the dict-like
state mapping returned by `ainvoke`: it tests for an attribute, not a key,
so it is False for every state value. -/
def hasattrGeneration (_t : GraphState) : Bool :=
  false

/-- `main` (agent.py, lines 126-142): run the graph on the fresh state (the
langgraph default recursion limit of 25 steps is the fuel) and return
`answer["generation"]` when `hasattr(answer, "generation")`, else `answer`. -/
def main (o : Oracle) (query : String) : Except String MainResult :=
  match (runAux o 25 .set_query (initState query)).2 with
  | .outOfFuel => .error "GraphRecursionError"
  | .crashed e => .error e
  | .finished t =>
      if hasattrGeneration t then
        .ok (.generationOnly ((t.generation).getD ""))
      else
        .ok (.fullState t)

/-- A simple capability stub every scenario oracle is derived from. -/
def baseOracle : Oracle where
  classify _ := .ok "mongodb_query"
  schemaCtx _ _ _ := .ok "schema facts"
  mongoGen _ _ _ _ _ := .ok ("final answer", [])
  mongoTool _ _ := .ok "[]"
  codeGen _ _ _ _ := .ok ⟨"print(1)", []⟩
  summarize _ _ := .ok "the summary"
  pyExecAgent _ _ _ := .ok ("done", [])
  pyTool _ _ := .ok "[]"
  reformat _ _ _ _ := .ok "no"

/-- A stub data-query capability whose every generation response requests a
further tool call. -/
def alwaysToolOracle : Oracle :=
  { baseOracle with
      mongoGen := fun _ _ _ _ _ => .ok ("go", [⟨"get_records", "subject_id: 1", "1"⟩]) }

/-- A stub whose generation capability raises the input-too-large failure. -/
def inputTooLargeOracle : Oracle :=
  { baseOracle with mongoGen := fun _ _ _ _ _ => .error .inputTooLarge }

/-- A stub whose generation capability raises an ordinary exception. -/
def genFailureOracle : Oracle :=
  { baseOracle with mongoGen := fun _ _ _ _ _ => .error (.other "boom") }

/-- A stub routed to the code branch without execution. -/
def summarizeOracle : Oracle :=
  { baseOracle with classify := fun _ => .ok "summarize_code" }

/-- A stub routed to the code branch with execution requested. -/
def executeOracle : Oracle :=
  { baseOracle with classify := fun _ => .ok "python_script_execute" }

/-- A stub whose reformat capability answers "yes". -/
def reformatYesOracle : Oracle :=
  { baseOracle with reformat := fun _ _ _ _ => .ok "yes" }

/-- A stub code-execution capability whose every response requests a further
tool call. -/
def pyStubOracle : Oracle :=
  { executeOracle with
      pyExecAgent := fun _ _ _ => .ok ("go", [⟨"run_python", "script", "1"⟩]) }

/-- Whether a message carries a pending (non-empty) tool-invocation list. -/
def hasPendingMsg : Msg → Bool
  | .ai _ (_ :: _) => true
  | _ => false

/-- Pending tool invocations of the most recent message, `false` when there
is none. -/
def hasPendingToolCalls : Option Msg → Bool
  | some m => hasPendingMsg m
  | none => false

/-- The tool-result message one iteration of the loop in
`get_mongodb_execute_tools` appends for a call: the serialized result on
success, the exception text on failure. -/
def mongoToolMsg (o : Oracle) (tc : ToolCall) : Msg :=
  match o.mongoTool tc.name tc.args with
  | .ok r => .tool r tc.name tc.id
  | .error e => .tool e tc.name tc.id

/-- A stub code-execution capability class: the execution agent always
requests a further tool call and the reformat capability always answers one
of the two wired labels. -/
def PyStubAlwaysTools (o : Oracle) : Prop :=
  (∀ a b n, ∃ content tc, o.pyExecAgent a b n = .ok (content, tc) ∧ tc ≠ []) ∧
  (∀ a b q n, o.reformat a b q n = .ok "yes" ∨ o.reformat a b q n = .ok "no")

/-- The inductive invariant carried across the graph walk: `error` is unset
at every node entry, `generation` is also unset anywhere the data-query loop
may still run, and the shape of the newest message is pinned down where a
router will read it. -/
def Inv : Node → GraphState → Prop
  | .set_query, s => s.error = none ∧ s.generation = none
  | .get_schema_context, s => s.error = none ∧ s.generation = none
  | .code_query_assignment, s =>
      s.error = none ∧ s.generation = none ∧
        hasPendingToolCalls (lastMsg s.messages) = false
  | .execute_mongodb_query, s =>
      s.error = none ∧ s.generation = none ∧
        hasPendingToolCalls (lastMsg s.messages) = false
  | .mongodb_execute_tools, s =>
      s.error = none ∧ s.generation = none ∧
        ∃ c tc, lastMsg s.messages = some (.ai c tc) ∧ tc ≠ []
  | _, s => s.error = none

/-- Project the terminal state out of a run outcome. -/
def finishedState (r : RunResult) : GraphState :=
  match r with
  | .finished t => t
  | _ => {}

/-- The terminal state of the plain data-query scenario. -/
def baseRunFinal : GraphState :=
  finishedState (runAux baseOracle 25 .set_query (initState "q")).2

/-- Python lists live on a heap of reference cells; a heap maps each cell to
its current contents. -/
def Heap : Type :=
  Nat → List String

/-- The slice of the session state `get_schema_context` reads, with the
`schema_context` sequence held by reference, as a Python list is. -/
structure PySchemaState where
  heap : Heap
  schemaRef : Nat
  query : Option String
  schema_call_count : Option Nat

/-- The patch of `get_schema_context` in the reference model: its
`schema_context` value is a reference into the heap. -/
structure PySchemaPatch where
  messages : List Msg
  schemaRefOut : Nat

/-- `get_schema_context` (utils/nodes/schema_context.py, lines 59-78) with
Python list identity made explicit: `schema_context.append(response.content)`
rewrites the cell the input state points at, and the returned patch's
`schema_context` aliases that very cell. -/
def get_schema_context_ref (o : Oracle) (st : PySchemaState) :
    Except String (PySchemaPatch × Heap) :=
  let ctx := st.heap st.schemaRef
  match o.schemaCtx (st.query.getD "No query was provided") ctx
      (st.schema_call_count.getD 0) with
  | .error e => .error e
  | .ok content =>
      let heap2 : Heap := fun r => if r = st.schemaRef then ctx ++ [content] else st.heap r
      .ok ({ messages := [.ai content []], schemaRefOut := st.schemaRef }, heap2)

/-- A concrete pre-step snapshot for the reference model: one empty
schema-context cell. -/
def refState0 : PySchemaState where
  heap := fun _ => []
  schemaRef := 0
  query := some "q"
  schema_call_count := some 0

/-- A concrete entry state of the code-execution loop: counter 0, route set
to execution, one generated script. -/
def pyC8State : GraphState :=
  { messages := [.human "q"], query := some "q",
    code_or_query := some "python_script_execute",
    python_code := some "print(1)", python_execute_count := some 0 }

/-- The heap after the reference-model schema step on `refState0`. -/
def refHeapAfter : Heap :=
  match get_schema_context_ref baseOracle refState0 with
  | .ok (_, h2) => h2
  | .error _ => refState0.heap

/-- A stub whose python generation, summarization and execution capabilities
all raise ordinary exceptions. -/
def failingPyOracle : Oracle :=
  { baseOracle with
      codeGen := fun _ _ _ _ => .error "boom"
      summarize := fun _ _ => .error "boom2"
      pyExecAgent := fun _ _ _ => .error "boom3" }

/-- A tool call whose backend succeeds under `mixedToolOracle`. -/
def tcGood : ToolCall :=
  ⟨"get_records", "subject_id: 1", "1"⟩

/-- A tool call whose backend raises under `mixedToolOracle`. -/
def tcBad : ToolCall :=
  ⟨"aggregation_retrieval", "pipeline: p", "2"⟩

/-- A stub whose tool backend succeeds for `tcGood` and raises for `tcBad`. -/
def mixedToolOracle : Oracle :=
  { alwaysToolOracle with
      mongoTool := fun n _ => if n = "get_records" then .ok "[1]" else .error "ToolException" }

/-- A state whose newest message requests one succeeding and one failing
tool invocation. -/
def sMixed : GraphState :=
  { messages := [.ai "go" [tcGood, tcBad]], mongodb_call_count := some 2 }

@[simp]
theorem overwrite_none {α : Type} (a : Option α) : overwrite a none = a :=
  rfl

@[simp]
theorem overwrite_some {α : Type} (a : Option α) (v : α) : overwrite a (some v) = some v :=
  rfl

@[simp]
theorem merge_messages (s : GraphState) (p : Patch) :
    (merge s p).messages = s.messages ++ p.messages.getD [] :=
  rfl

@[simp]
theorem merge_query (s : GraphState) (p : Patch) :
    (merge s p).query = overwrite s.query p.query :=
  rfl

@[simp]
theorem merge_code_or_query (s : GraphState) (p : Patch) :
    (merge s p).code_or_query = overwrite s.code_or_query p.code_or_query :=
  rfl

@[simp]
theorem merge_schema_context (s : GraphState) (p : Patch) :
    (merge s p).schema_context = s.schema_context ++ p.schema_context.getD [] :=
  rfl

@[simp]
theorem merge_mongodb_output (s : GraphState) (p : Patch) :
    (merge s p).mongodb_output = (p.mongodb_output).getD s.mongodb_output :=
  rfl

@[simp]
theorem merge_mongodb_query (s : GraphState) (p : Patch) :
    (merge s p).mongodb_query = overwrite s.mongodb_query p.mongodb_query :=
  rfl

@[simp]
theorem merge_mongodb_call_count (s : GraphState) (p : Patch) :
    (merge s p).mongodb_call_count = overwrite s.mongodb_call_count p.mongodb_call_count :=
  rfl

@[simp]
theorem merge_schema_call_count (s : GraphState) (p : Patch) :
    (merge s p).schema_call_count = overwrite s.schema_call_count p.schema_call_count :=
  rfl

@[simp]
theorem merge_python_code (s : GraphState) (p : Patch) :
    (merge s p).python_code = overwrite s.python_code p.python_code :=
  rfl

@[simp]
theorem merge_python_code_response (s : GraphState) (p : Patch) :
    (merge s p).python_code_response = overwrite s.python_code_response p.python_code_response :=
  rfl

@[simp]
theorem merge_python_execute_count (s : GraphState) (p : Patch) :
    (merge s p).python_execute_count = overwrite s.python_execute_count p.python_execute_count :=
  rfl

@[simp]
theorem merge_generation (s : GraphState) (p : Patch) :
    (merge s p).generation = overwrite s.generation p.generation :=
  rfl

@[simp]
theorem merge_error (s : GraphState) (p : Patch) :
    (merge s p).error = overwrite s.error p.error :=
  rfl

@[simp]
theorem lastMsg_concat (l : List Msg) (m : Msg) : lastMsg (l ++ [m]) = some m := by
  simp [lastMsg]

theorem lastMsg_append_of_ne_nil (l l2 : List Msg) (h : l2 ≠ []) :
    lastMsg (l ++ l2) = lastMsg l2 := by
  unfold lastMsg
  rw [List.getLast?_append]
  cases h2 : l2.getLast? with
  | none => exact absurd (List.getLast?_eq_none_iff.mp h2) h
  | some a => rfl

theorem mongoToolLoop_fst (o : Oracle) (tcs : List ToolCall) :
    ∀ outs mq, (mongoToolLoop o tcs (outs, mq)).1 = outs ++ tcs.map (mongoToolMsg o) := by
  induction tcs with
  | nil => intro outs mq; simp [mongoToolLoop]
  | cons tc rest ih =>
      intro outs mq
      unfold mongoToolLoop
      cases h : o.mongoTool tc.name tc.args with
      | ok r => simp [ih, mongoToolMsg, h]
      | error e => simp [ih, mongoToolMsg, h]

theorem mongoToolLoop_snd (o : Oracle) (tcs : List ToolCall) :
    ∀ outs mq, (mongoToolLoop o tcs (outs, mq)).2 =
      mq ++ (tcs.filter fun tc => (o.mongoTool tc.name tc.args).isOk).map ToolCall.args := by
  induction tcs with
  | nil => intro outs mq; simp [mongoToolLoop]
  | cons tc rest ih =>
      intro outs mq
      unfold mongoToolLoop
      cases h : o.mongoTool tc.name tc.args with
      | ok r => simp [ih, h, Except.isOk, Except.toBool]
      | error e => simp [ih, h, Except.isOk, Except.toBool]

theorem hasPendingMsg_mongoToolMsg (o : Oracle) (tc : ToolCall) :
    hasPendingMsg (mongoToolMsg o tc) = false := by
  unfold mongoToolMsg
  cases o.mongoTool tc.name tc.args <;> rfl

theorem hasPending_last_toolMsgs (o : Oracle) (l : List Msg) (tcs : List ToolCall)
    (h : tcs ≠ []) :
    hasPendingToolCalls (lastMsg (l ++ tcs.map (mongoToolMsg o))) = false := by
  rw [lastMsg_append_of_ne_nil _ _ (by simpa using h)]
  cases h2 : lastMsg (tcs.map (mongoToolMsg o)) with
  | none =>
      exact absurd (List.getLast?_eq_none_iff.mp h2) (by simpa using h)
  | some m =>
      have hm : m ∈ tcs.map (mongoToolMsg o) := List.mem_of_mem_getLast? h2
      obtain ⟨tc, _, rfl⟩ := List.mem_map.mp hm
      simpa [hasPendingToolCalls] using hasPendingMsg_mongoToolMsg o tc

theorem pyToolLoop_snd_some (o : Oracle) (tcs : List ToolCall) :
    ∀ outs c0, ((pyToolLoop o tcs (outs, some c0)).2).isSome = true := by
  induction tcs with
  | nil => intro outs c0; simp [pyToolLoop]
  | cons tc rest ih => intro outs c0; simpa [pyToolLoop] using ih _ _

theorem pyToolLoop_snd_isSome (o : Oracle) (tcs : List ToolCall) (outs : List Msg)
    (c0 : Option String) (h : tcs ≠ []) :
    ((pyToolLoop o tcs (outs, c0)).2).isSome = true := by
  cases tcs with
  | nil => exact absurd rfl h
  | cons tc rest => simpa [pyToolLoop] using pyToolLoop_snd_some o rest _ _

theorem countVisits_nil (n : Node) : countVisits n [] = 0 :=
  rfl

theorem countVisits_cons (n m : Node) (p : Patch) (l : List (Node × Patch)) :
    countVisits n ((m, p) :: l) = (if m = n then 1 else 0) + countVisits n l := by
  by_cases h : m = n
  · simp [countVisits, List.filter_cons, h, Nat.add_comm]
  · simp [countVisits, List.filter_cons, h]

/-- The bounded-retry guarantee of the code-execution loop: from the
execution step with counter value 3 - j, a stub that always requests tool
calls performs exactly j more tool-execution rounds and the run finishes. -/
theorem pyLoopBound (o : Oracle) (ho : PyStubAlwaysTools o) :
    ∀ j, j ≤ 3 → ∀ (s : GraphState) (fuel : Nat),
      s.query.isSome = true →
      s.code_or_query = some "python_script_execute" →
      s.python_code.isSome = true →
      s.python_execute_count.getD 0 = 3 - j →
      3 * j + 1 ≤ fuel →
      countVisits .validate_python_script (runAux o fuel .python_executor s).1 = j ∧
      ∃ t, (runAux o fuel .python_executor s).2 = .finished t := by
  intro j
  induction j with
  | zero =>
      intro hj s fuel hq hroute hpc hcount hfuel
      obtain ⟨fuel, rfl⟩ : ∃ f2, fuel = f2 + 1 := ⟨fuel - 1, by omega⟩
      obtain ⟨c, tc, hresp, htc⟩ := ho.1 (s.python_code.getD "No code has been generated yet")
        (s.python_code_response.getD "There was no response generated by the script")
        (s.python_execute_count.getD 0)
      simp only [Nat.sub_zero] at hcount
      simp only [runAux, runNode, python_executor, hresp]
      simp only [nextNode, should_continue_python_run, merge_messages, merge_python_execute_count,
        overwrite_none, hcount, Option.getD_some, lastMsg_concat, reduceIte]
      simp [countVisits]
  | succ j ih =>
      intro hj s fuel hq hroute hpc hcount hfuel
      obtain ⟨fuel, rfl⟩ : ∃ f2, fuel = f2 + 1 := ⟨fuel - 1, by omega⟩
      obtain ⟨c, tc, hresp, htc⟩ := ho.1 (s.python_code.getD "No code has been generated yet")
        (s.python_code_response.getD "There was no response generated by the script")
        (s.python_execute_count.getD 0)
      have hlt : ¬ (s.python_execute_count.getD 0 ≥ 3) := by omega
      simp only [runAux, runNode, python_executor, hresp]
      simp only [nextNode, should_continue_python_run, merge_messages, merge_python_execute_count,
        overwrite_none, Option.getD_some, lastMsg_concat, if_neg hlt]
      cases tc with
      | nil => exact absurd rfl htc
      | cons tc0 tcr =>
      simp only [Msg.toolCallsAttr, reduceIte]
      obtain ⟨fuel, rfl⟩ : ∃ f2, fuel = f2 + 1 := ⟨fuel - 1, by omega⟩
      obtain ⟨q, hqe⟩ := Option.isSome_iff_exists.mp hq
      obtain ⟨pc, hpce⟩ := Option.isSome_iff_exists.mp hpc
      obtain ⟨cont, hcont⟩ : ∃ y, (pyToolLoop o (tc0 :: tcr) ([], none)).2 = some y :=
        Option.isSome_iff_exists.mp (pyToolLoop_snd_isSome o (tc0 :: tcr) [] none (by simp))
      simp only [runAux, runNode, run_python_script, merge_messages, merge_python_execute_count,
        overwrite_none, Option.getD_some, lastMsg_concat, Msg.toolCallsAttr, hcont, hcount]
      simp only [nextNode, should_reformat, merge_python_code, merge_query,
        merge_python_code_response, merge_python_execute_count, overwrite_none, overwrite_some,
        hpce, hqe, Option.getD_some]
      rcases ho.2 pc cont q (3 - (j + 1) + 1) with hr | hr
      · -- reformat answers "yes": back through python_formatter, then the executor again
        rw [hr]
        simp only [reduceIte]
        obtain ⟨fuel, rfl⟩ : ∃ f2, fuel = f2 + 1 := ⟨fuel - 1, by omega⟩
        simp only [runAux, runNode, python_formatter, merge_query, merge_python_code,
          merge_python_code_response, merge_schema_context, overwrite_none, overwrite_some,
          hqe, hpce, Option.getD_some, Option.getD_none, List.append_nil]
        cases hcg : o.codeGen q s.schema_context pc cont with
        | ok answer =>
            cases hat : answer.tool_calls with
            | nil =>
                simp only [hcg, hat]
                simp only [nextNode, should_execute, merge_code_or_query, overwrite_none,
                  hroute, reduceIte]
                have hx := ih (by omega)
                    (merge
                      (merge
                              (merge s { messages := some [Msg.ai c (tc0 :: tcr)], generation := some c })
                              { messages := some (pyToolLoop o (tc0 :: tcr) ([], none)).1,
                                python_code_response := some cont,
                                python_execute_count := some (3 - (j + 1) + 1) })
                      { messages := some [Msg.human answer.content],
                        python_code := some answer.content,
                        generation := some answer.content })
                    fuel
                  (by simp [hqe]) (by simp [hroute]) (by simp)
                  (by simp only [merge_python_execute_count, overwrite_none, overwrite_some,
                        Option.getD_some]
                      omega)
                  (by omega)
                refine ⟨?_, hx.2⟩
                rw [countVisits_cons, countVisits_cons, countVisits_cons]
                simp only [reduceCtorEq, reduceIte, eq_self_iff_true, if_true]
                have h1 := hx.1
                omega
            | cons a tl =>
                simp only [hcg, hat]
                simp only [nextNode, should_execute, merge_code_or_query, overwrite_none,
                  hroute, reduceIte]
                have hx := ih (by omega)
                    (merge
                      (merge
                              (merge s { messages := some [Msg.ai c (tc0 :: tcr)], generation := some c })
                              { messages := some (pyToolLoop o (tc0 :: tcr) ([], none)).1,
                                python_code_response := some cont,
                                python_execute_count := some (3 - (j + 1) + 1) })
                      { messages := some [Msg.human (a.getD "No code generated")],
                        python_code := some (a.getD "No code generated"),
                        generation := some (a.getD "No code generated") })
                    fuel
                  (by simp [hqe]) (by simp [hroute]) (by simp)
                  (by simp only [merge_python_execute_count, overwrite_none, overwrite_some,
                        Option.getD_some]
                      omega)
                  (by omega)
                refine ⟨?_, hx.2⟩
                rw [countVisits_cons, countVisits_cons, countVisits_cons]
                simp only [reduceCtorEq, reduceIte, eq_self_iff_true, if_true]
                have h1 := hx.1
                omega
        | error e =>
            simp only [hcg]
            simp only [nextNode, should_execute, merge_code_or_query, overwrite_none,
              hroute, reduceIte]
            have hx := ih (by omega)
                (merge
                  (merge
                          (merge s { messages := some [Msg.ai c (tc0 :: tcr)], generation := some c })
                          { messages := some (pyToolLoop o (tc0 :: tcr) ([], none)).1,
                            python_code_response := some cont,
                            python_execute_count := some (3 - (j + 1) + 1) })
                  { messages := some [Msg.ai ("Python formatter failed: " ++ e) []],
                    python_code := some ("Python formatter failed: " ++ e),
                    generation := some ("Python formatter failed: " ++ e) })
                fuel
              (by simp [hqe]) (by simp [hroute]) (by simp)
              (by simp only [merge_python_execute_count, overwrite_none, overwrite_some,
                    Option.getD_some]
                  omega)
              (by omega)
            refine ⟨?_, hx.2⟩
            rw [countVisits_cons, countVisits_cons, countVisits_cons]
            simp only [reduceCtorEq, reduceIte, eq_self_iff_true, if_true]
            have h1 := hx.1
            omega
      · -- reformat answers "no": straight back to python_executor
        rw [hr]
        simp only [reduceIte]
        rw [if_neg (show ("no" : String) ≠ "yes" by decide)]
        simp only []
        have hx := ih (by omega)
            (merge
                      (merge s { messages := some [Msg.ai c (tc0 :: tcr)], generation := some c })
                      { messages := some (pyToolLoop o (tc0 :: tcr) ([], none)).1,
                        python_code_response := some cont,
                        python_execute_count := some (3 - (j + 1) + 1) })
            fuel
          (by simp [hqe]) (by simp [hroute]) (by simp [hpce])
          (by simp only [merge_python_execute_count, overwrite_none, overwrite_some,
                Option.getD_some]
              omega)
          (by omega)
        refine ⟨?_, hx.2⟩
        rw [countVisits_cons, countVisits_cons]
        simp only [reduceCtorEq, reduceIte, eq_self_iff_true, if_true]
        have h1 := hx.1
        omega

/-- C1: evaluated at a stub whose every generation response requests a tool
call, the data-query branch performs 6 generation calls and 5 tool-execution
rounds before the router forces `end` at counter value 5; the capability was
still requesting a tool call at the end.  (The claim and the router's own
docstring say 5 generation calls and a maximum of 4 tool rounds.) -/
theorem mongodb_loop_runs_six_generation_calls :
    countVisits .execute_mongodb_query
        (runAux alwaysToolOracle 25 .set_query (initState "q")).1 = 6 ∧
    countVisits .mongodb_execute_tools
        (runAux alwaysToolOracle 25 .set_query (initState "q")).1 = 5 ∧
    (runAux alwaysToolOracle 25 .set_query (initState "q")).2 =
      .finished (finishedState (runAux alwaysToolOracle 25 .set_query (initState "q")).2) ∧
    (finishedState (runAux alwaysToolOracle 25 .set_query (initState "q")).2).mongodb_call_count
      = some 5 ∧
    hasPendingToolCalls (lastMsg
      (finishedState (runAux alwaysToolOracle 25 .set_query (initState "q")).2).messages)
      = true :=
  ⟨by decide, by decide, by decide, by decide, by decide⟩

/-- C2 counterexample: the reformat decision is not a function of the state —
on one and the same state, two capability behaviors give the reformat router
two different labels and route the graph to two different nodes. -/
theorem reformat_router_depends_on_capability :
    should_reformat reformatYesOracle { python_code := some "c", query := some "q" } ≠
      should_reformat baseOracle { python_code := some "c", query := some "q" } ∧
    nextNode reformatYesOracle .validate_python_script
        { python_code := some "c", query := some "q" } ≠
      nextNode baseOracle .validate_python_script
        { python_code := some "c", query := some "q" } := by
  exact ⟨by decide, by decide⟩

/-- C2 amended: at every conditional decision point except the reformat one
(branch selection, execute-vs-summarize, data-query continuation,
code-execution continuation), routing is a pure function of the post-merge
state: it is unchanged under any change of the capabilities. -/
theorem routers_pure_except_reformat (o1 o2 : Oracle) (n : Node)
    (h : n ≠ .validate_python_script) (s : GraphState) :
    nextNode o1 n s = nextNode o2 n s := by
  cases n
  case validate_python_script => exact absurd rfl h
  all_goals rfl

theorem routers_pure_except_reformat_witness :
    nextNode reformatYesOracle .python_executor { messages := [.ai "m" []] } =
      nextNode baseOracle .python_executor { messages := [.ai "m" []] } :=
  routers_pure_except_reformat reformatYesOracle baseOracle .python_executor
    (by decide) { messages := [.ai "m" []] }

/-- C3 counterexample: a generation exception other than input-too-large is
not converted into a message patch by `execute_mongodb_query` — it escapes
the step as the secondary unbound-local failure of the fall-through
`return` statement. -/
theorem mongodb_generation_failure_escapes_step :
    execute_mongodb_query genFailureOracle (initState "q") =
      .error "UnboundLocalError: local variable referenced before assignment" := by
  decide

/-- C3 amended: the python-branch steps do satisfy the claim — whatever the
capabilities do, `python_formatter`, `python_summarizer` and
`python_executor` return a patch (no exception escapes), and on a capability
exception that patch carries the failure text as the `generation`/message
output. -/
theorem python_steps_catch_generation_failures (o : Oracle) (s : GraphState) (q : String)
    (hq : s.query = some q) :
    (python_formatter o s).isOk = true ∧
    (python_summarizer o s).isOk = true ∧
    (python_executor o s).isOk = true ∧
    (∀ e, o.codeGen q s.schema_context (s.python_code.getD "No code has been generated yet")
        (s.python_code_response.getD " ") = .error e →
      python_formatter o s = .ok
        { messages := some [.ai ("Python formatter failed: " ++ e) []]
          python_code := some ("Python formatter failed: " ++ e)
          generation := some ("Python formatter failed: " ++ e) }) ∧
    (∀ e, o.summarize s.query (s.python_code.getD "No code has been generated yet") = .error e →
      python_summarizer o s = .ok
        { messages := some [.ai ("Python summarizer failed: " ++ e) []]
          generation := some ("Python summarizer failed: " ++ e) }) ∧
    (∀ e, o.pyExecAgent (s.python_code.getD "No code has been generated yet")
        (s.python_code_response.getD "There was no response generated by the script")
        (s.python_execute_count.getD 0) = .error e →
      python_executor o s = .ok
        { messages := some [.ai ("Python executor failed: " ++ e) []]
          generation := some ("Python executor failed: " ++ e) }) := by
  refine ⟨?_, ?_, ?_, ?_, ?_, ?_⟩
  · simp only [python_formatter, hq]
    cases h : o.codeGen q s.schema_context (s.python_code.getD "No code has been generated yet")
        (s.python_code_response.getD " ") with
    | ok answer => rfl
    | error e => rfl
  · simp only [python_summarizer]
    cases h : o.summarize s.query (s.python_code.getD "No code has been generated yet") with
    | ok c => rfl
    | error e => rfl
  · simp only [python_executor]
    cases h : o.pyExecAgent (s.python_code.getD "No code has been generated yet")
        (s.python_code_response.getD "There was no response generated by the script")
        (s.python_execute_count.getD 0) with
    | ok r => rfl
    | error e => rfl
  · intro e he
    simp only [python_formatter, hq, he]
  · intro e he
    simp only [python_summarizer, he]
  · intro e he
    simp only [python_executor, he]

theorem python_steps_catch_generation_failures_witness :
    python_formatter failingPyOracle (initState "q") = .ok
      { messages := some [.ai "Python formatter failed: boom" []]
        python_code := some "Python formatter failed: boom"
        generation := some "Python formatter failed: boom" } :=
  (python_steps_catch_generation_failures failingPyOracle (initState "q") "q"
    rfl).2.2.2.1 "boom" rfl

/-- C4: evaluated at completing runs, the synchronous entry point hands back
the entire final workflow state (the dict-like result has no `generation`
attribute, so the `hasattr` branch never fires), not a value of shape
one-field generation or one-field error. -/
theorem main_returns_full_state :
    (∃ t, main summarizeOracle "q" = .ok (.fullState t) ∧
      t.generation = some "the summary" ∧ t.error = none) ∧
    (∃ t, main executeOracle "q" = .ok (.fullState t) ∧ t.generation = some "done") :=
  ⟨⟨_, rfl, by decide, by decide⟩, ⟨_, rfl, by decide⟩⟩

/-- C6: when the generation capability raises the input-too-large failure the
step catches it and returns the error patch without retrying; on the first
data-query cycle the session then terminates with `error` populated,
`generation` empty, the counter still 0, and exactly one generation call. -/
theorem input_too_large_sets_error_and_ends :
    (∀ (o : Oracle) (s : GraphState),
      o.mongoGen s.schema_context s.mongodb_output s.mongodb_query (s.query.getD "")
          (s.mongodb_call_count.getD 0) = .error .inputTooLarge →
      execute_mongodb_query o s = .ok
        { messages := some []
          error := some "Data retrieved is too long for the model to synthesize. Reduce the size of the input, context, or query." }) ∧
    (∃ t, (runAux inputTooLargeOracle 25 .set_query (initState "q")).2 = .finished t ∧
      t.error = some "Data retrieved is too long for the model to synthesize. Reduce the size of the input, context, or query." ∧
      t.generation = none ∧
      t.mongodb_call_count = some 0 ∧
      countVisits .execute_mongodb_query
        (runAux inputTooLargeOracle 25 .set_query (initState "q")).1 = 1) := by
  constructor
  · intro o s h
    simp only [execute_mongodb_query, h]
  · exact ⟨_, rfl, by decide, by decide, by decide, by decide⟩

theorem input_too_large_sets_error_and_ends_witness :
    execute_mongodb_query inputTooLargeOracle (initState "q") = .ok
      { messages := some []
        error := some "Data retrieved is too long for the model to synthesize. Reduce the size of the input, context, or query." } :=
  input_too_large_sets_error_and_ends.1 inputTooLargeOracle (initState "q") rfl

/-- C9 counterexample: the schema-context step mutates the prior state's
sequence in place — after the step, reading the very cell the pre-step
snapshot points at gives the longer list, and the returned patch aliases
that same cell. -/
theorem schema_context_mutated_in_place :
    refHeapAfter refState0.schemaRef ≠ refState0.heap refState0.schemaRef ∧
    refHeapAfter refState0.schemaRef = ["schema facts"] ∧
    refState0.heap refState0.schemaRef = [] := by
  exact ⟨by decide, by decide, by decide⟩

/-- C9 amended: `get_schema_context` appends the retrieved fragment to the
input state's `schema_context` list in place: the cell the prior snapshot
points at now holds the extended list, the patch aliases that same cell,
and every other cell is untouched. -/
theorem schema_context_append_aliases (o : Oracle) (st : PySchemaState) (content : String)
    (h : o.schemaCtx (st.query.getD "No query was provided") (st.heap st.schemaRef)
        (st.schema_call_count.getD 0) = .ok content) :
    ∃ p h2, get_schema_context_ref o st = .ok (p, h2) ∧
      h2 st.schemaRef = st.heap st.schemaRef ++ [content] ∧
      p.schemaRefOut = st.schemaRef ∧
      (∀ r, r ≠ st.schemaRef → h2 r = st.heap r) := by
  simp only [get_schema_context_ref, h]
  exact ⟨_, _, rfl, by simp, rfl, fun r hr => by simp [hr]⟩

theorem schema_context_append_aliases_witness :
    refHeapAfter refState0.schemaRef = refState0.heap refState0.schemaRef ++ ["schema facts"] := by
  obtain ⟨p, h2, h1, hx, _, _⟩ :=
    schema_context_append_aliases baseOracle refState0 "schema facts" rfl
  simpa [refHeapAfter, h1] using hx

/-- C10: one run of the MongoDB tool-execution step maps each requested tool
call to one tool-result message (serialized result on success, exception
text on failure), lists in `mongodb_query` the arguments of the successful
invocations only, and sets `mongodb_call_count` to the prior count plus
exactly 1, however many calls ran or failed. -/
theorem mongodb_tool_step_records_args_and_count (o : Oracle) (s : GraphState)
    (c : String) (tcs : List ToolCall) (h : lastMsg s.messages = some (.ai c tcs)) :
    get_mongodb_execute_tools o s = .ok
      { messages := some (tcs.map (mongoToolMsg o))
        mongodb_output := some (tcs.map (mongoToolMsg o))
        mongodb_query := some
          ((tcs.filter fun tc => (o.mongoTool tc.name tc.args).isOk).map ToolCall.args)
        mongodb_call_count := some (s.mongodb_call_count.getD 0 + 1) } ∧
    (∀ tc e, o.mongoTool tc.name tc.args = .error e →
      mongoToolMsg o tc = .tool e tc.name tc.id) := by
  constructor
  · have h1 := mongoToolLoop_fst o tcs [] []
    have h2 := mongoToolLoop_snd o tcs [] []
    simp only [List.nil_append] at h1 h2
    simp only [get_mongodb_execute_tools, h, Msg.toolCallsAttr, h1, h2]
  · intro tc e he
    simp only [mongoToolMsg, he]

/-- C5 counterexample: in a complete code-execution run, `generation` is
written twice — once by `python_formatter`, a step the run then continues
past (its successor `python_executor` is visited after it), and once by the
terminal step. -/
theorem generation_written_twice_by_nonterminal_step :
    ((runAux executeOracle 25 .set_query (initState "q")).1.map Prod.fst) =
      [.set_query, .get_schema_context, .code_query_assignment,
        .python_formatter, .python_executor] ∧
    countGenWrites (runAux executeOracle 25 .set_query (initState "q")).1 = 2 ∧
    ((runAux executeOracle 25 .set_query (initState "q")).1.filter
        (fun e => e.1 = Node.python_formatter)).all
      (fun e => e.2.generation.isSome) = true :=
  ⟨by decide, by decide, by decide⟩

/-- C5 amended: `generation` may be written by several steps of one run
(`python_formatter` writes it on every invocation, terminal or not); under
the replace merge policy the terminal state's `generation` is the value of
the last patch of the run that carried the field. -/
theorem generation_final_value_is_last_write :
    (∀ (o : Oracle) (fuel : Nat) (n : Node) (s t : GraphState),
      (runAux o fuel n s).2 = .finished t →
      t.generation =
        (runAux o fuel n s).1.foldl (fun g e => overwrite g e.2.generation) s.generation) ∧
    (∀ (o : Oracle) (s : GraphState) (q : String), s.query = some q →
      ∀ p, python_formatter o s = .ok p → p.generation.isSome = true) := by
  constructor
  · intro o fuel
    induction fuel with
    | zero =>
        intro n s t ht
        simp [runAux] at ht
    | succ fuel ih =>
        intro n s t ht
        simp only [runAux] at ht ⊢
        cases hp : runNode o n s with
        | error e => simp [hp] at ht
        | ok p =>
            simp only [hp] at ht ⊢
            cases hn : nextNode o n (merge s p) with
            | error e => simp [hn] at ht
            | ok next =>
                cases next with
                | none =>
                    simp only [hn] at ht ⊢
                    cases ht
                    simp
                | some n' =>
                    simp only [hn] at ht ⊢
                    have := ih n' (merge s p) t ht
                    simpa [List.foldl_cons] using this
  · intro o s q hq p hp
    revert hp
    simp only [python_formatter, hq]
    cases h : o.codeGen q s.schema_context (s.python_code.getD "No code has been generated yet")
        (s.python_code_response.getD " ") with
    | ok answer =>
        intro hp
        cases hp
        rfl
    | error e =>
        intro hp
        cases hp
        rfl

theorem generation_final_value_is_last_write_witness :
    baseRunFinal.generation =
      (runAux baseOracle 25 .set_query (initState "q")).1.foldl
        (fun g e => overwrite g e.2.generation) (initState "q").generation :=
  generation_final_value_is_last_write.1 baseOracle 25 .set_query (initState "q")
    baseRunFinal (by decide)

theorem mongodb_tool_step_records_args_and_count_witness :
    get_mongodb_execute_tools mixedToolOracle sMixed = .ok
      { messages := some ([tcGood, tcBad].map (mongoToolMsg mixedToolOracle))
        mongodb_output := some ([tcGood, tcBad].map (mongoToolMsg mixedToolOracle))
        mongodb_query := some
          (([tcGood, tcBad].filter fun tc =>
            (mixedToolOracle.mongoTool tc.name tc.args).isOk).map ToolCall.args)
        mongodb_call_count := some (sMixed.mongodb_call_count.getD 0 + 1) } :=
  (mongodb_tool_step_records_args_and_count mixedToolOracle sMixed "go" [tcGood, tcBad]
    rfl).1

/-- C8: on any state with a most recent message, the code-execution
continuation router returns `end` exactly when the counter is at least 3 or
the newest message has no pending tool invocations, and `continue` exactly
otherwise; consequently, for every stub capability that always requests a
further tool call, the loop entered at counter 0 performs exactly 3
tool-execution rounds and then finishes. -/
theorem python_continuation_end_iff_and_three_cycles :
    (∀ s : GraphState, s.messages ≠ [] →
      ((should_continue_python_run s = .ok "end") ↔
        (3 ≤ s.python_execute_count.getD 0 ∨
          hasPendingToolCalls (lastMsg s.messages) = false)) ∧
      ((should_continue_python_run s = .ok "continue") ↔
        (s.python_execute_count.getD 0 < 3 ∧
          hasPendingToolCalls (lastMsg s.messages) = true))) ∧
    (∀ o : Oracle, PyStubAlwaysTools o →
      ∀ (s : GraphState) (fuel : Nat),
        s.query.isSome = true →
        s.code_or_query = some "python_script_execute" →
        s.python_code.isSome = true →
        s.python_execute_count.getD 0 = 0 →
        10 ≤ fuel →
        countVisits .validate_python_script (runAux o fuel .python_executor s).1 = 3 ∧
        ∃ t, (runAux o fuel .python_executor s).2 = .finished t) := by
  constructor
  · intro s hm
    cases hlm : lastMsg s.messages with
    | none => exact absurd (List.getLast?_eq_none_iff.mp hlm) hm
    | some m =>
        cases m with
        | human c =>
            by_cases hc : 3 ≤ s.python_execute_count.getD 0 <;>
              simp [should_continue_python_run, hlm, hasPendingToolCalls, hasPendingMsg,
                Msg.toolCallsAttr, ite_self, hc, ge_iff_le]
        | tool c nm id =>
            by_cases hc : 3 ≤ s.python_execute_count.getD 0 <;>
              simp [should_continue_python_run, hlm, hasPendingToolCalls, hasPendingMsg,
                Msg.toolCallsAttr, ite_self, hc, ge_iff_le]
        | ai c tcs =>
            cases tcs with
            | nil =>
                by_cases hc : 3 ≤ s.python_execute_count.getD 0 <;>
                  simp [should_continue_python_run, hlm, hasPendingToolCalls, hasPendingMsg,
                    Msg.toolCallsAttr, ite_self, hc, ge_iff_le]
            | cons a tl =>
                by_cases hc : 3 ≤ s.python_execute_count.getD 0 <;>
                  simp [should_continue_python_run, hlm, hasPendingToolCalls, hasPendingMsg,
                    Msg.toolCallsAttr, ite_self, hc, ge_iff_le] <;> omega
  · intro o ho s fuel h1 h2 h3 h4 h5
    exact pyLoopBound o ho 3 (by omega) s fuel h1 h2 h3 (by rw [h4]) (by omega)

theorem python_continuation_end_iff_and_three_cycles_witness :
    should_continue_python_run { messages := [.ai "m" []], python_execute_count := some 0 }
      = .ok "end" ∧
    countVisits .validate_python_script (runAux pyStubOracle 10 .python_executor pyC8State).1
      = 3 := by
  constructor
  · exact (python_continuation_end_iff_and_three_cycles.1
      { messages := [.ai "m" []], python_execute_count := some 0 } (by decide)).1.mpr
      (Or.inr (by decide))
  · exact (python_continuation_end_iff_and_three_cycles.2 pyStubOracle
      ⟨fun a b n => ⟨"go", [⟨"run_python", "script", "1"⟩], rfl, by decide⟩,
        fun a b q n => Or.inr rfl⟩
      pyC8State 10 (by decide) rfl (by decide) (by decide) (by omega)).1


theorem should_continue_mongodb_continue (s : GraphState)
    (h : should_continue_mongodb s = .ok "continue") :
    hasPendingToolCalls (lastMsg s.messages) = true := by
  unfold should_continue_mongodb at h
  cases hlm : lastMsg s.messages with
  | none => rw [hlm] at h; exact Except.noConfusion h
  | some m =>
      rw [hlm] at h
      cases m with
      | human c => simp [Msg.toolCallsAttr] at h
      | tool c nm id => simp [Msg.toolCallsAttr] at h
      | ai c tcs =>
          cases tcs with
          | nil => simp [Msg.toolCallsAttr] at h
          | cons a tl => simp [hasPendingToolCalls, hasPendingMsg]

theorem nextNode_cqa_ok (o : Oracle) (s : GraphState) (res : Option Node)
    (h : nextNode o .code_query_assignment s = .ok res) :
    res = some .execute_mongodb_query ∨ res = some .python_formatter := by
  simp only [nextNode] at h
  cases hr : code_query_router s with
  | error e => simp only [hr] at h; exact Except.noConfusion h
  | ok l =>
      simp only [hr] at h
      by_cases hl : l = "mongodb"
      · rw [if_pos hl] at h; exact Or.inl (Except.ok.inj h).symm
      · rw [if_neg hl] at h
        by_cases hl2 : l = "python"
        · rw [if_pos hl2] at h; exact Or.inr (Except.ok.inj h).symm
        · rw [if_neg hl2] at h; exact Except.noConfusion h

theorem nextNode_mongo_ok (o : Oracle) (s : GraphState) (res : Option Node)
    (h : nextNode o .execute_mongodb_query s = .ok res) :
    res = none ∨ (res = some .mongodb_execute_tools ∧
      should_continue_mongodb s = .ok "continue") := by
  simp only [nextNode] at h
  cases hr : should_continue_mongodb s with
  | error e => simp only [hr] at h; exact Except.noConfusion h
  | ok l =>
      simp only [hr] at h
      by_cases hl : l = "continue"
      · subst hl; rw [if_pos rfl] at h
        exact Or.inr ⟨(Except.ok.inj h).symm, rfl⟩
      · rw [if_neg hl] at h
        by_cases hl2 : l = "end"
        · rw [if_pos hl2] at h; exact Or.inl (Except.ok.inj h).symm
        · rw [if_neg hl2] at h; exact Except.noConfusion h

theorem nextNode_formatter_ok (o : Oracle) (s : GraphState) (res : Option Node)
    (h : nextNode o .python_formatter s = .ok res) :
    res = some .python_executor ∨ res = some .python_summarizer := by
  simp only [nextNode] at h
  cases hr : should_execute s with
  | error e => simp only [hr] at h; exact Except.noConfusion h
  | ok l =>
      simp only [hr] at h
      by_cases hl : l = "execute"
      · rw [if_pos hl] at h; exact Or.inl (Except.ok.inj h).symm
      · rw [if_neg hl] at h
        by_cases hl2 : l = "summarize"
        · rw [if_pos hl2] at h; exact Or.inr (Except.ok.inj h).symm
        · rw [if_neg hl2] at h; exact Except.noConfusion h

theorem nextNode_pyexec_ok (o : Oracle) (s : GraphState) (res : Option Node)
    (h : nextNode o .python_executor s = .ok res) :
    res = none ∨ res = some .validate_python_script := by
  simp only [nextNode] at h
  cases hr : should_continue_python_run s with
  | error e => simp only [hr] at h; exact Except.noConfusion h
  | ok l =>
      simp only [hr] at h
      by_cases hl : l = "continue"
      · rw [if_pos hl] at h; exact Or.inr (Except.ok.inj h).symm
      · rw [if_neg hl] at h
        by_cases hl2 : l = "end"
        · rw [if_pos hl2] at h; exact Or.inl (Except.ok.inj h).symm
        · rw [if_neg hl2] at h; exact Except.noConfusion h

theorem nextNode_validate_ok (o : Oracle) (s : GraphState) (res : Option Node)
    (h : nextNode o .validate_python_script s = .ok res) :
    res = some .python_formatter ∨ res = some .python_executor := by
  simp only [nextNode] at h
  cases hr : should_reformat o s with
  | error e => simp only [hr] at h; exact Except.noConfusion h
  | ok l =>
      simp only [hr] at h
      by_cases hl : l = "yes"
      · rw [if_pos hl] at h; exact Or.inl (Except.ok.inj h).symm
      · rw [if_neg hl] at h
        by_cases hl2 : l = "no"
        · rw [if_pos hl2] at h; exact Or.inr (Except.ok.inj h).symm
        · rw [if_neg hl2] at h; exact Except.noConfusion h

theorem python_formatter_patch_error (o : Oracle) (s : GraphState) (p : Patch)
    (h : python_formatter o s = .ok p) : p.error = none := by
  unfold python_formatter at h
  cases hq : s.query with
  | none => rw [hq] at h; exact Except.noConfusion h
  | some q =>
      simp only [hq] at h
      cases hcg : o.codeGen q s.schema_context (s.python_code.getD "No code has been generated yet")
          (s.python_code_response.getD " ") with
      | ok answer => simp only [hcg] at h; cases h; rfl
      | error e => simp only [hcg] at h; cases h; rfl

theorem python_summarizer_patch_error (o : Oracle) (s : GraphState) (p : Patch)
    (h : python_summarizer o s = .ok p) : p.error = none := by
  unfold python_summarizer at h
  cases hsm : o.summarize s.query (s.python_code.getD "No code has been generated yet") with
  | ok c => simp only [hsm] at h; cases h; rfl
  | error e => simp only [hsm] at h; cases h; rfl

theorem python_executor_patch_error (o : Oracle) (s : GraphState) (p : Patch)
    (h : python_executor o s = .ok p) : p.error = none := by
  unfold python_executor at h
  cases hpe : o.pyExecAgent (s.python_code.getD "No code has been generated yet")
      (s.python_code_response.getD "There was no response generated by the script")
      (s.python_execute_count.getD 0) with
  | ok r => simp only [hpe] at h; cases h; rfl
  | error e => simp only [hpe] at h; cases h; rfl

theorem run_python_script_patch_error (o : Oracle) (s : GraphState) (p : Patch)
    (h : run_python_script o s = .ok p) : p.error = none := by
  unfold run_python_script at h
  cases hlm : lastMsg s.messages with
  | none => rw [hlm] at h; exact Except.noConfusion h
  | some m =>
      simp only [hlm] at h
      cases hta : m.toolCallsAttr with
      | none => simp only [hta] at h; exact Except.noConfusion h
      | some tcs =>
          simp only [hta] at h
          cases hpl : (pyToolLoop o tcs ([], none)).2 with
          | none => simp only [hpl] at h; exact Except.noConfusion h
          | some content => simp only [hpl] at h; cases h; rfl

theorem execute_mongodb_query_patch (o : Oracle) (s : GraphState) (p : Patch)
    (h : execute_mongodb_query o s = .ok p) :
    (p.generation = none ∧ p.error = none ∧
      ∃ c tc, tc ≠ [] ∧ p.messages = some [.ai c tc]) ∨
    (p.error = none ∧ ∃ c, p.generation = some c ∧ p.messages = some [.ai c []]) ∨
    (p.generation = none ∧ p.messages = some []) := by
  unfold execute_mongodb_query at h
  cases hmg : o.mongoGen s.schema_context s.mongodb_output s.mongodb_query
      (s.query.getD "") (s.mongodb_call_count.getD 0) with
  | ok pr =>
      obtain ⟨c, tc⟩ := pr
      simp only [hmg] at h
      cases tc with
      | nil => rw [if_pos rfl] at h; cases h; exact Or.inr (Or.inl ⟨rfl, c, rfl, rfl⟩)
      | cons a tl =>
          rw [if_neg (List.cons_ne_nil a tl)] at h
          cases h
          exact Or.inl ⟨rfl, rfl, c, a :: tl, List.cons_ne_nil a tl, rfl⟩
  | error err =>
      cases err with
      | inputTooLarge => simp only [hmg] at h; cases h; exact Or.inr (Or.inr ⟨rfl, rfl⟩)
      | other msg => simp only [hmg] at h; exact Except.noConfusion h



/-- Outcome exclusivity along any graph walk that starts in a state
satisfying the invariant. -/
theorem runAux_outcome_exclusive (o : Oracle) :
    ∀ (fuel : Nat) (n : Node) (s : GraphState), Inv n s →
      ∀ t, (runAux o fuel n s).2 = .finished t →
        t.generation = none ∨ t.error = none := by
  intro fuel
  induction fuel with
  | zero =>
      intro n s _ t ht
      simp [runAux] at ht
  | succ fuel ih =>
      intro n s hInv t ht
      cases n with
      | set_query =>
          obtain ⟨herr, hgen⟩ := hInv
          simp only [runAux, runNode, set_query] at ht
          cases hlm : lastMsg s.messages with
          | none => simp [hlm] at ht
          | some m =>
              simp only [hlm, nextNode] at ht
              refine ih .get_schema_context _ ?_ t (by simpa using ht)
              exact ⟨by simp [herr], by simp [hgen]⟩
      | get_schema_context =>
          obtain ⟨herr, hgen⟩ := hInv
          simp only [runAux, runNode, get_schema_context] at ht
          cases hsc : o.schemaCtx (s.query.getD "No query was provided") s.schema_context
              (s.schema_call_count.getD 0) with
          | error e => simp [hsc] at ht
          | ok content =>
              simp only [hsc, nextNode] at ht
              refine ih .code_query_assignment _ ?_ t (by simpa using ht)
              refine ⟨by simp [herr], by simp [hgen], ?_⟩
              simp [hasPendingToolCalls, hasPendingMsg]
      | code_query_assignment =>
          obtain ⟨herr, hgen, hpend⟩ := hInv
          simp only [runAux, runNode, code_query_assignment] at ht
          cases hq : s.query with
          | none => simp [hq] at ht
          | some q2 =>
              simp only [hq] at ht
              cases hcl : o.classify q2 with
              | error e => simp [hcl] at ht
              | ok route =>
                  simp only [hcl] at ht
                  cases hn : nextNode o .code_query_assignment
                      (merge s { code_or_query := some route }) with
                  | error e => simp [hn] at ht
                  | ok res =>
                      rcases nextNode_cqa_ok o _ res hn with hres | hres <;> subst hres <;>
                        simp only [hn] at ht
                      · refine ih .execute_mongodb_query _ ?_ t (by simpa using ht)
                        refine ⟨by simp [herr], by simp [hgen], ?_⟩
                        simpa using hpend
                      · refine ih .python_formatter _ ?_ t (by simpa using ht)
                        simp [Inv, herr]
      | execute_mongodb_query =>
          obtain ⟨herr, hgen, hpend⟩ := hInv
          simp only [runAux] at ht
          cases hp : runNode o .execute_mongodb_query s with
          | error e => simp [hp] at ht
          | ok p =>
              simp only [hp] at ht
              cases hn : nextNode o .execute_mongodb_query (merge s p) with
              | error e => simp [hn] at ht
              | ok res =>
                  rcases nextNode_mongo_ok o _ res hn with hres | ⟨hres, hcont⟩
                  · subst hres
                    simp only [hn] at ht
                    simp only [RunResult.finished.injEq] at ht
                    subst ht
                    rcases execute_mongodb_query_patch o s p hp with
                      ⟨hg, _, _⟩ | ⟨he, _⟩ | ⟨hg, _⟩
                    · exact Or.inl (by simp [hg, hgen])
                    · exact Or.inr (by simp [he, herr])
                    · exact Or.inl (by simp [hg, hgen])
                  · subst hres
                    simp only [hn] at ht
                    have hp2 := should_continue_mongodb_continue _ hcont
                    rcases execute_mongodb_query_patch o s p hp with
                      ⟨hg, he, c, tc, htc, hm⟩ | ⟨he, c, hg, hm⟩ | ⟨hg, hm⟩
                    · refine ih .mongodb_execute_tools _ ?_ t (by simpa using ht)
                      exact ⟨by simp [herr, he], by simp [hgen, hg], c, tc, by simp [hm], htc⟩
                    · exfalso
                      simp only [merge_messages, hm, Option.getD_some, lastMsg_concat,
                        hasPendingToolCalls, hasPendingMsg] at hp2
                      exact Bool.noConfusion hp2
                    · exfalso
                      simp only [merge_messages, hm, Option.getD_some, List.append_nil] at hp2
                      rw [hpend] at hp2
                      exact Bool.noConfusion hp2
                      
      | mongodb_execute_tools =>
          obtain ⟨herr, hgen, c2, tcs, hlm, htcs⟩ := hInv
          simp only [runAux, runNode, get_mongodb_execute_tools, hlm, Msg.toolCallsAttr,
            nextNode] at ht
          refine ih .execute_mongodb_query _ ?_ t (by simpa using ht)
          refine ⟨by simp [herr], by simp [hgen], ?_⟩
          have h1 := mongoToolLoop_fst o tcs [] []
          simp only [List.nil_append] at h1
          simp only [merge_messages, Option.getD_some, h1]
          exact hasPending_last_toolMsgs o _ tcs htcs
      | python_formatter =>
          have herr : s.error = none := hInv
          simp only [runAux] at ht
          cases hp : runNode o .python_formatter s with
          | error e => simp [hp] at ht
          | ok p =>
              simp only [hp] at ht
              have hpe := python_formatter_patch_error o s p hp
              cases hn : nextNode o .python_formatter (merge s p) with
              | error e => simp [hn] at ht
              | ok res =>
                  rcases nextNode_formatter_ok o _ res hn with hres | hres <;> subst hres <;>
                    simp only [hn] at ht
                  · refine ih .python_executor _ ?_ t (by simpa using ht)
                    simp [Inv, herr, hpe]
                  · refine ih .python_summarizer _ ?_ t (by simpa using ht)
                    simp [Inv, herr, hpe]
      | python_summarizer =>
          have herr : s.error = none := hInv
          simp only [runAux] at ht
          cases hp : runNode o .python_summarizer s with
          | error e => simp [hp] at ht
          | ok p =>
              simp only [hp, nextNode] at ht
              simp only [RunResult.finished.injEq] at ht
              subst ht
              exact Or.inr (by simp [herr, python_summarizer_patch_error o s p hp])
      | python_executor =>
          have herr : s.error = none := hInv
          simp only [runAux] at ht
          cases hp : runNode o .python_executor s with
          | error e => simp [hp] at ht
          | ok p =>
              simp only [hp] at ht
              have hpe := python_executor_patch_error o s p hp
              cases hn : nextNode o .python_executor (merge s p) with
              | error e => simp [hn] at ht
              | ok res =>
                  rcases nextNode_pyexec_ok o _ res hn with hres | hres <;> subst hres <;>
                    simp only [hn] at ht
                  · simp only [RunResult.finished.injEq] at ht
                    subst ht
                    exact Or.inr (by simp [herr, hpe])
                  · refine ih .validate_python_script _ ?_ t (by simpa using ht)
                    simp [Inv, herr, hpe]
      | validate_python_script =>
          have herr : s.error = none := hInv
          simp only [runAux] at ht
          cases hp : runNode o .validate_python_script s with
          | error e => simp [hp] at ht
          | ok p =>
              simp only [hp] at ht
              have hpe := run_python_script_patch_error o s p hp
              cases hn : nextNode o .validate_python_script (merge s p) with
              | error e => simp [hn] at ht
              | ok res =>
                  rcases nextNode_validate_ok o _ res hn with hres | hres <;> subst hres <;>
                    simp only [hn] at ht
                  · refine ih .python_formatter _ ?_ t (by simpa using ht)
                    simp [Inv, herr, hpe]
                  · refine ih .python_executor _ ?_ t (by simpa using ht)
                    simp [Inv, herr, hpe]


/-- C7: every terminal state reachable from a fresh session has at most one
authoritative outcome: its `generation` is unset or its `error` is unset, so
the two are never both populated with meaningful content. -/
theorem terminal_state_outcome_exclusive (o : Oracle) (q : String) (fuel : Nat)
    (t : GraphState)
    (h : (runAux o fuel .set_query (initState q)).2 = .finished t) :
    t.generation = none ∨ t.error = none :=
  runAux_outcome_exclusive o fuel .set_query (initState q) ⟨rfl, rfl⟩ t h

theorem terminal_state_outcome_exclusive_witness :
    baseRunFinal.generation = none ∨ baseRunFinal.error = none :=
  terminal_state_outcome_exclusive baseOracle "q" 25 baseRunFinal (by decide)

end GamerX
